import Mathlib

/-!
Verification of the task-dispatch core of the cadence repository:
the zone partitioner and zone-state resolver
(common/partition/default-partitioner.go, common/persistence/zoneDrains.go,
the types file) and the matching task writer
(service/matching/taskWriter.go), as a shallow embedding in Lean 4.

Pure functions of the source are translated to Lean functions; the
stateful task writer is translated to explicit state passing over a
record of its mutable fields.  Machine int64 values are modelled as Int
(no arithmetic in the source approaches the overflow boundary on the
inputs considered).  Fallible Go calls return Except values; a Go
runtime panic is modelled by a distinct result constructor.  External
collaborators (the config store lease, the domain cache, the global
drain store, the farm hash) appear as explicit parameters or oracles.
-/

namespace Cadence

/-! ### Zone data model (types package) -/

/-- ZoneName from the types file: a symbolic name of a capacity zone. -/
abbrev ZoneName := String

/-- ZoneStatus constants from the types file (iota order: invalid, healthy, drained). -/
inductive ZoneStatus where
  | invalid
  | healthy
  | drained
  deriving DecidableEq, Repr

/-- ZonePartition from the types file: a pair of a zone name and its status. -/
structure ZonePartition where
  Name : ZoneName
  Status : ZoneStatus
  deriving DecidableEq, Repr

/-- Error values surfaced by the partitioner and the zone-state resolver.
Go wraps underlying errors in new messages; only the kind matters here. -/
inductive PartErr where
  | decodeErr
  | domainErr
  | drainsErr
  | stateErr
  deriving DecidableEq, Repr

/-- Result of a Go function returning a value and an error, extended with a
third outcome modelling a runtime panic (such as an index-out-of-range or an
integer division by zero). -/
inductive GoResult (α : Type) where
  | ok : α → GoResult α
  | err : PartErr → GoResult α
  | panicked : GoResult α
  deriving DecidableEq, Repr

/-- DefaultPartitionConfig (default-partitioner.go lines 16-19): decoded
partition hint with JSON keys wf-start-zone and run-id. -/
structure DefaultPartitionConfig where
  WorkflowStartZone : ZoneName
  RunID : String
  deriving DecidableEq, Repr

/-! ### Zone-state resolver (DefaultZoneStateHandler) -/

/-- Domain metadata as seen through the domain cache: the per-domain
ZoneConfig mapping (a Go map, modelled as an association list). -/
structure DomainEntry where
  ZoneConfig : List (ZoneName × ZonePartition)
  deriving DecidableEq, Repr

/-- DefaultZoneStateHandler (default-partitioner.go lines 28-35) together
with the read-only answers of its external collaborators: the dynamic-config
predicate, the domain cache lookup, and the global cluster-drain table
(a call to GetClusterDrains, modelled by its result). -/
structure DefaultZoneStateHandler where
  zonalPartitioningEnabled : String → Bool
  domainCache : String → Except PartErr DomainEntry
  globalZoneDrains : Except PartErr (List (ZoneName × ZonePartition))
  allZonesList : List ZoneName

/-- The global-drain fallthrough of Get (default-partitioner.go lines
135-147): consult the cluster drain map, else report the zone healthy. -/
def DefaultZoneStateHandler.getGlobal (z : DefaultZoneStateHandler) (zone : ZoneName) :
    Except PartErr ZonePartition :=
  match z.globalZoneDrains with
  | Except.error e => Except.error e
  | Except.ok drains =>
    match drains.lookup zone with
    | some globalCfg => Except.ok globalCfg
    | none => Except.ok { Name := zone, Status := ZoneStatus.healthy }

/-- Get (default-partitioner.go lines 118-148): resolve the status of a zone
for a domain.  Feature gate first; then the per-domain override, which fires
only when it declares the zone drained; then the global drain table; then
healthy by default. -/
def DefaultZoneStateHandler.Get (z : DefaultZoneStateHandler) (domain : String) (zone : ZoneName) :
    Except PartErr ZonePartition :=
  if z.zonalPartitioningEnabled domain = false then
    Except.ok { Name := zone, Status := ZoneStatus.healthy }
  else
    match z.domainCache domain with
    | Except.error _ => Except.error PartErr.domainErr
    | Except.ok domainData =>
      match domainData.ZoneConfig.lookup zone with
      | some cfg =>
        if cfg.Status = ZoneStatus.drained then Except.ok cfg
        else z.getGlobal zone
      | none => z.getGlobal zone

/-- ListAll (default-partitioner.go lines 95-107): resolve every zone of the
configured allZonesList through Get, in order, failing on the first error
with no partial output.  The recursion over the remaining zone names mirrors
the Go for loop. -/
def DefaultZoneStateHandler.listAllFrom (z : DefaultZoneStateHandler) (domainID : String) :
    List ZoneName → Except PartErr (List ZonePartition)
  | [] => Except.ok []
  | zone :: rest =>
    match z.Get domainID zone with
    | Except.error e => Except.error e
    | Except.ok zoneData =>
      match z.listAllFrom domainID rest with
      | Except.error e => Except.error e
      | Except.ok out => Except.ok (zoneData :: out)

/-- ListAll entry point over the configured all-zones list. -/
def DefaultZoneStateHandler.ListAll (z : DefaultZoneStateHandler) (domainID : String) :
    Except PartErr (List ZonePartition) :=
  z.listAllFrom domainID z.allZonesList

/-! ### Partitioner (DefaultPartitioner) -/

/-- The ZoneState interface as used by DefaultPartitioner: the drain-state
Get and ListAll operations for a fixed deployment, as functions of the
domain. -/
structure ZoneStateI where
  get : String → ZoneName → Except PartErr ZonePartition
  listAll : String → Except PartErr (List ZonePartition)

/-- IsDrained (default-partitioner.go lines 55-61): look the zone up and
compare its status with drained. -/
def IsDrained (zs : ZoneStateI) (domain : String) (zone : ZoneName) : Except PartErr Bool :=
  match zs.get domain zone with
  | Except.error _ => Except.error PartErr.stateErr
  | Except.ok state => Except.ok (state.Status == ZoneStatus.drained)

/-- pickZoneAfterDrain (default-partitioner.go lines 152-161): filter the
zone list to the healthy ones, keep their names, and index by the farm hash
of the run id modulo the length.  The farm hash (external library go-farm)
is a parameter.  With no healthy zone the Go code divides by zero and
panics; the out-of-range lookup returns none here. -/
def pickZoneAfterDrain (hash : String → Nat) (zones : List ZonePartition)
    (wfConfig : DefaultPartitionConfig) : Option ZoneName :=
  let availableZones := (zones.filter (fun zone => zone.Status == ZoneStatus.healthy)).map ZonePartition.Name
  let hashv := hash wfConfig.RunID
  availableZones.get? (hashv % availableZones.length)

/-- Decoding of the partition hint by json.Unmarshal into
DefaultPartitionConfig (default-partitioner.go lines 72-76).  The raw hint
is modelled as the parse result of the JSON object: none for bytes that do
not decode, some key-value list otherwise.  Unmarshal ignores unknown keys
and leaves a missing key at the field's zero value (the empty string). -/
def decodeHint : Option (List (String × String)) → Except PartErr DefaultPartitionConfig
  | none => Except.error PartErr.decodeErr
  | some kvs =>
    Except.ok
      { WorkflowStartZone := (kvs.lookup "wf-start-zone").getD ""
        RunID := (kvs.lookup "run-id").getD "" }

/-- GetTaskZone (default-partitioner.go lines 71-93): decode the hint, check
whether the declared start zone is drained, and either keep the start zone
or pick an alternate zone over the listed statuses. -/
def GetTaskZone (hash : String → Nat) (zs : ZoneStateI) (domainID : String)
    (rawHint : Option (List (String × String))) : GoResult ZoneName :=
  match decodeHint rawHint with
  | Except.error e => GoResult.err e
  | Except.ok partitionData =>
    match IsDrained zs domainID partitionData.WorkflowStartZone with
    | Except.error e => GoResult.err e
    | Except.ok isDrained =>
      if isDrained then
        match zs.listAll domainID with
        | Except.error e => GoResult.err e
        | Except.ok zones =>
          match pickZoneAfterDrain hash zones partitionData with
          | none => GoResult.panicked
          | some zone => GoResult.ok zone
      else
        GoResult.ok partitionData.WorkflowStartZone

/-! ### Task writer (service/matching/taskWriter.go) -/

/-- Error values of the task writer.  shutdown is errShutdown (line 76),
overloaded is the service-busy error of appendTask (line 148), leaseErr is
the lease-renewal failure surfaced by renewLeaseWithRetry, invalidState is
the hard error of allocTaskIDBlock (line 177), persistenceErr stands for a
CreateTasks failure. -/
inductive WriterErr where
  | shutdown
  | overloaded
  | leaseErr
  | invalidState
  | persistenceErr
  deriving DecidableEq, Repr

/-- taskIDBlock (taskWriter.go lines 51-54).  The Go field end is a Lean
keyword and is spelled end_. -/
structure TaskIDBlock where
  start : Int
  end_ : Int
  deriving DecidableEq, Repr

/-- The mutable fields of taskWriter (lines 57-72) touched by the writer
loop: the current ID block, the last observed lease range id (the value of
db.RangeID), and the published watermark.  leaseResults is the oracle of
outcomes of the successive renewLeaseWithRetry calls (true: the conditional
increment succeeds; false: retries exhausted or lease lost). -/
structure TaskWriterState where
  taskIDBlock : TaskIDBlock
  rangeID : Int
  leaseResults : List Bool
  maxReadLevel : Int
  deriving DecidableEq, Repr

/-- Modelled from the spec: rangeIDToTaskIDBlock is referenced by
taskWriter.go (lines 105, 174, 183) but defined outside the provided
sources; section 4.2 of the specification fixes the block arithmetic:
start = (range-id - 1) * range-size + 1 and end = range-id * range-size. -/
def rangeIDToTaskIDBlock (rangeID : Int) (rangeSize : Int) : TaskIDBlock :=
  { start := (rangeID - 1) * rangeSize + 1
    end_ := rangeID * rangeSize }

/-- Modelled from the spec: renewLeaseWithRetry (lines 186-200) delegates to
db.RenewLease, which is outside the provided sources; sections 3 and 6 of
the specification make renewal a conditional increment of the stored range
id, which under the single-owner assumption returns the successor of the
last observed range id and refreshes the local cache.  The head of the
oracle list decides the outcome of this call. -/
def renewLease (w : TaskWriterState) : Except WriterErr Int × TaskWriterState :=
  match w.leaseResults with
  | [] => (Except.error WriterErr.leaseErr, w)
  | ok :: rest =>
    if ok then
      (Except.ok (w.rangeID + 1),
       { w with rangeID := w.rangeID + 1, leaseResults := rest })
    else
      (Except.error WriterErr.leaseErr, { w with leaseResults := rest })

/-- allocTaskIDBlock (taskWriter.go lines 173-184): recompute the current
block from the cached range id, demand that its end equals the exhausted
block's end, then renew the lease and derive the next block. -/
def allocTaskIDBlock (R : Int) (w : TaskWriterState) (prevBlockEnd : Int) :
    Except WriterErr TaskIDBlock × TaskWriterState :=
  let currBlock := rangeIDToTaskIDBlock w.rangeID R
  if currBlock.end_ ≠ prevBlockEnd then
    (Except.error WriterErr.invalidState, w)
  else
    match renewLease w with
    | (Except.error e, w2) => (Except.error e, w2)
    | (Except.ok rid, w2) => (Except.ok (rangeIDToTaskIDBlock rid R), w2)

/-- One loop iteration of allocTaskIDs contributes the id taken at position
i (result[i] = w.taskIDBlock.start) in front of the ids of the remaining
iterations, threading the final state through. -/
def consStep (id : Int) :
    Except WriterErr (List Int) × TaskWriterState →
    Except WriterErr (List Int) × TaskWriterState
  | (Except.error e, w) => (Except.error e, w)
  | (Except.ok ids, w) => (Except.ok (id :: ids), w)

/-- allocTaskIDs (taskWriter.go lines 156-171): for each of count
iterations, renew the block when the current one is exhausted
(start > end), then hand out taskIDBlock.start and increment it.  A renewal
failure aborts the whole call with the error, the block consumption of the
earlier iterations remaining in place. -/
def allocTaskIDs (R : Int) : Nat → TaskWriterState → Except WriterErr (List Int) × TaskWriterState
  | 0, w => (Except.ok [], w)
  | count + 1, w =>
    if w.taskIDBlock.start > w.taskIDBlock.end_ then
      match allocTaskIDBlock R w w.taskIDBlock.end_ with
      | (Except.error e, w2) => (Except.error e, w2)
      | (Except.ok newBlock, w2) =>
        let w3 := { w2 with taskIDBlock := newBlock }
        consStep w3.taskIDBlock.start
          (allocTaskIDs R count
            { w3 with taskIDBlock := { w3.taskIDBlock with start := w3.taskIDBlock.start + 1 } })
    else
      consStep w.taskIDBlock.start
        (allocTaskIDs R count
          { w with taskIDBlock := { w.taskIDBlock with start := w.taskIDBlock.start + 1 } })

/-- The body of one taskWriterLoop iteration (taskWriter.go lines 206-247)
after a batch of batchSize requests has been read: allocate the ids (on
failure answer the batch with the error and continue), record the local
maxReadLevel variable while building the tasks (the assignment per request
is the fold), call CreateTasks (outcome given by commitOK), and store
w.maxReadLevel whenever the local variable is positive - the store is not
conditional on the commit having succeeded.  The second component is the
error fanned out to the batch. -/
def writerIteration (R : Int) (batchSize : Nat) (commitOK : Bool) (w : TaskWriterState) :
    TaskWriterState × Option WriterErr :=
  match allocTaskIDs R batchSize w with
  | (Except.error e, w2) => (w2, some e)
  | (Except.ok taskIDs, w2) =>
    let maxReadLevel := taskIDs.foldl (fun _ id => id) 0
    let w3 := if maxReadLevel > 0 then { w2 with maxReadLevel := maxReadLevel } else w2
    (w3, if commitOK then none else some WriterErr.persistenceErr)

/-- taskWriterLoop over a schedule of iterations, each given by its batch
size and its CreateTasks outcome. -/
def runLoop (R : Int) : List (Nat × Bool) → TaskWriterState → TaskWriterState
  | [], w => w
  | (b, c) :: rest, w => runLoop R rest (writerIteration R b c w).1

/-- Start (taskWriter.go lines 97-110): derive the block from the granted
range id and publish maxReadLevel = block.start - 1. -/
def startState (R : Int) (rangeID : Int) (leases : List Bool) : TaskWriterState :=
  let block := rangeIDToTaskIDBlock rangeID R
  { taskIDBlock := block
    rangeID := rangeID
    leaseResults := leases
    maxReadLevel := block.start - 1 }

/-- getWriteBatch (taskWriter.go lines 257-268): with the iteration budget
of the for loop (i counts down from MaxTaskBatchSize), move requests from
the append channel (FIFO list) onto the batch until the budget or the
channel is exhausted.  Returns the batch and the remaining channel. -/
def getWriteBatch {α : Type} : Nat → List α → List α → List α × List α
  | 0, reqs, appendCh => (reqs, appendCh)
  | i + 1, reqs, appendCh =>
    match appendCh with
    | [] => (reqs, appendCh)
    | req :: rest => getWriteBatch i (reqs ++ [req]) rest

/-- The control fields of taskWriter seen by Stop and by the admission part
of appendTask: the stopped flag, how many times the stop channel has been
closed, the buffered append channel (requests as opaque numbers), and its
capacity (OutstandingTaskAppendsThreshold). -/
structure TaskWriterCtl where
  stopped : Bool
  stopChCloseCount : Nat
  appendCh : List Nat
  capacity : Nat
  deriving DecidableEq, Repr

/-- Stop (taskWriter.go lines 113-117): compare-and-swap on the stopped
flag; only the winning call closes the stop channel. -/
def Stop (w : TaskWriterCtl) : TaskWriterCtl :=
  if w.stopped = false then
    { w with stopped := true, stopChCloseCount := w.stopChCloseCount + 1 }
  else
    w

/-- Outcome of the admission phase of appendTask. -/
inductive AppendOutcome where
  | accepted
  | shutdownErr
  | busyErr
  deriving DecidableEq, Repr

/-- The admission phase of appendTask (taskWriter.go lines 123-150): refuse
with errShutdown when stopped; otherwise attempt the non-blocking send on
the buffered channel, refusing with the service-busy error when it is
full. -/
def appendTask (w : TaskWriterCtl) (req : Nat) : AppendOutcome × TaskWriterCtl :=
  if w.stopped then
    (AppendOutcome.shutdownErr, w)
  else if w.appendCh.length < w.capacity then
    (AppendOutcome.accepted, { w with appendCh := w.appendCh ++ [req] })
  else
    (AppendOutcome.busyErr, w)

/-! ### Invariants of the writer state -/

/-- Invariant of the writer state between loop iterations: the block end
matches the cached range id, the start is inside the block or one past its
end, and the range id is at least 1. -/
abbrev WInv (R : Int) (w : TaskWriterState) : Prop :=
  w.taskIDBlock.end_ = w.rangeID * R ∧
  (w.rangeID - 1) * R + 1 ≤ w.taskIDBlock.start ∧
  w.taskIDBlock.start ≤ w.taskIDBlock.end_ + 1 ∧
  1 ≤ w.rangeID

/-- Loop invariant: writer invariant plus the watermark lying strictly below
the next id to be handed out. -/
abbrev MInv (R : Int) (w : TaskWriterState) : Prop :=
  WInv R w ∧ w.maxReadLevel < w.taskIDBlock.start

@[simp] theorem rangeIDToTaskIDBlock_end (rangeID R : Int) :
    (rangeIDToTaskIDBlock rangeID R).end_ = rangeID * R := rfl

@[simp] theorem rangeIDToTaskIDBlock_start (rangeID R : Int) :
    (rangeIDToTaskIDBlock rangeID R).start = (rangeID - 1) * R + 1 := rfl

/-- Reduction of allocTaskIDBlock when the renewal oracle is exhausted. -/
theorem allocTaskIDBlock_nil (R : Int) (w : TaskWriterState)
    (hend : w.taskIDBlock.end_ = w.rangeID * R) (hlr : w.leaseResults = []) :
    allocTaskIDBlock R w w.taskIDBlock.end_ = (Except.error WriterErr.leaseErr, w) := by
  simp [allocTaskIDBlock, renewLease, hend, hlr]

/-- Reduction of allocTaskIDBlock when the next renewal fails. -/
theorem allocTaskIDBlock_fail (R : Int) (w : TaskWriterState)
    (hend : w.taskIDBlock.end_ = w.rangeID * R) (rest : List Bool)
    (hlr : w.leaseResults = false :: rest) :
    allocTaskIDBlock R w w.taskIDBlock.end_ =
      (Except.error WriterErr.leaseErr, { w with leaseResults := rest }) := by
  simp [allocTaskIDBlock, renewLease, hend, hlr]

/-- Reduction of allocTaskIDBlock when the next renewal succeeds. -/
theorem allocTaskIDBlock_ok (R : Int) (w : TaskWriterState)
    (hend : w.taskIDBlock.end_ = w.rangeID * R) (rest : List Bool)
    (hlr : w.leaseResults = true :: rest) :
    allocTaskIDBlock R w w.taskIDBlock.end_ =
      (Except.ok (rangeIDToTaskIDBlock (w.rangeID + 1) R),
       { w with rangeID := w.rangeID + 1, leaseResults := rest }) := by
  simp [allocTaskIDBlock, renewLease, hend, hlr]

/-- The fold recording the per-request assignment of the local maxReadLevel
variable either keeps the initial value or picks a list member. -/
theorem foldl_pick_aux (l : List Int) (d : Int) :
    l.foldl (fun _ id => id) d = d ∨ l.foldl (fun _ id => id) d ∈ l := by
  induction l generalizing d with
  | nil => exact Or.inl rfl
  | cons a t ih =>
    rcases ih a with h | h
    · right; rw [List.foldl_cons, h]; exact List.mem_cons_self a t
    · right; rw [List.foldl_cons]; exact List.mem_cons_of_mem a h

/-- On a non-empty list, the fold yields a list member. -/
theorem foldl_pick_mem (l : List Int) (d : Int) (h : l ≠ []) :
    l.foldl (fun _ id => id) d ∈ l := by
  cases l with
  | nil => exact absurd rfl h
  | cons a t =>
    rw [List.foldl_cons]
    rcases foldl_pick_aux t a with h1 | h1
    · rw [h1]; exact List.mem_cons_self a t
    · exact List.mem_cons_of_mem a h1

/-- Main lemma on allocTaskIDs: with a positive range size and the writer
invariant, the call preserves the invariant, only moves the block start
forward, never touches the watermark, fails only with the lease error, and
on success returns exactly count ids, strictly increasing, each at least
the old block start and below the new block start. -/
theorem allocTaskIDs_inv (R : Int) (hR : 1 ≤ R) :
    ∀ (count : Nat) (w : TaskWriterState), WInv R w →
      WInv R (allocTaskIDs R count w).2 ∧
      w.taskIDBlock.start ≤ (allocTaskIDs R count w).2.taskIDBlock.start ∧
      (allocTaskIDs R count w).2.maxReadLevel = w.maxReadLevel ∧
      (∀ e, (allocTaskIDs R count w).1 = Except.error e → e = WriterErr.leaseErr) ∧
      (∀ ids, (allocTaskIDs R count w).1 = Except.ok ids →
        ids.length = count ∧ List.Chain' (· < ·) ids ∧
        ∀ i ∈ ids, w.taskIDBlock.start ≤ i ∧
          i < (allocTaskIDs R count w).2.taskIDBlock.start) := by
  intro count
  induction count with
  | zero =>
    intro w hw
    refine ⟨hw, le_refl _, rfl, ?_, ?_⟩
    · intro e he
      have he2 : (Except.ok ([] : List Int) : Except WriterErr (List Int)) = Except.error e := he
      cases he2
    · intro ids hids
      have hids2 : (Except.ok ([] : List Int) : Except WriterErr (List Int)) = Except.ok ids := hids
      cases hids2
      exact ⟨rfl, List.chain'_nil, by simp⟩
  | succ n ih =>
    intro w hw
    have key : ∀ (w3 : TaskWriterState) (id : Int),
        WInv R w3 →
        w.taskIDBlock.start ≤ id →
        id + 1 = w3.taskIDBlock.start →
        w3.maxReadLevel = w.maxReadLevel →
        WInv R (consStep id (allocTaskIDs R n w3)).2 ∧
        w.taskIDBlock.start ≤ (consStep id (allocTaskIDs R n w3)).2.taskIDBlock.start ∧
        (consStep id (allocTaskIDs R n w3)).2.maxReadLevel = w.maxReadLevel ∧
        (∀ e, (consStep id (allocTaskIDs R n w3)).1 = Except.error e → e = WriterErr.leaseErr) ∧
        (∀ ids, (consStep id (allocTaskIDs R n w3)).1 = Except.ok ids →
          ids.length = n + 1 ∧ List.Chain' (· < ·) ids ∧
          ∀ i ∈ ids, w.taskIDBlock.start ≤ i ∧
            i < (consStep id (allocTaskIDs R n w3)).2.taskIDBlock.start) := by
      intro w3 id hw3 hw0id hid3 hmrl3
      have H := ih w3 hw3
      rcases hq : allocTaskIDs R n w3 with ⟨res, w4⟩
      rw [hq] at H
      obtain ⟨hwi4, hst4, hmrl4, herr4, hok4⟩ := H
      have hst34 : w3.taskIDBlock.start ≤ w4.taskIDBlock.start := hst4
      cases res with
      | error e =>
        simp only [consStep]
        refine ⟨hwi4, by omega, by rw [hmrl4, hmrl3], ?_, ?_⟩
        · intro e2 he2
          have he3 : (Except.error e : Except WriterErr (List Int)) = Except.error e2 := he2
          cases he3
          exact herr4 e rfl
        · intro ids hids
          have hids2 : (Except.error e : Except WriterErr (List Int)) = Except.ok ids := hids
          cases hids2
      | ok ids =>
        simp only [consStep]
        have hok := hok4 ids rfl
        refine ⟨hwi4, by omega, by rw [hmrl4, hmrl3], ?_, ?_⟩
        · intro e2 he2
          have he3 : (Except.ok (id :: ids) : Except WriterErr (List Int)) = Except.error e2 := he2
          cases he3
        · intro ids2 hids2
          have hids3 : (Except.ok (id :: ids) : Except WriterErr (List Int)) = Except.ok ids2 := hids2
          cases hids3
          refine ⟨by simp [hok.1], ?_, ?_⟩
          · refine List.chain'_cons'.mpr ⟨?_, hok.2.1⟩
            intro b hb
            have hbmem : b ∈ ids := List.mem_of_mem_head? hb
            have hb2 := (hok.2.2 b hbmem).1
            omega
          · intro i hi
            rcases List.mem_cons.mp hi with h | h
            · subst h
              exact ⟨hw0id, by omega⟩
            · have hi2 := hok.2.2 i h
              exact ⟨by omega, hi2.2⟩
    obtain ⟨hend, hlo, hhi, hrid⟩ := hw
    by_cases hex : w.taskIDBlock.start > w.taskIDBlock.end_
    · have hstart_eq : w.taskIDBlock.start = w.taskIDBlock.end_ + 1 := by omega
      cases hlr : w.leaseResults with
      | nil =>
        have hred : allocTaskIDs R (n + 1) w = (Except.error WriterErr.leaseErr, w) := by
          simp only [allocTaskIDs]
          rw [if_pos hex, allocTaskIDBlock_nil R w hend hlr]
        rw [hred]
        refine ⟨⟨hend, hlo, hhi, hrid⟩, le_refl _, rfl, ?_, ?_⟩
        · intro e he
          have he2 : (Except.error WriterErr.leaseErr : Except WriterErr (List Int)) = Except.error e := he
          cases he2
          rfl
        · intro ids hids
          have hids2 : (Except.error WriterErr.leaseErr : Except WriterErr (List Int)) = Except.ok ids := hids
          cases hids2
      | cons ok rest =>
        cases ok with
        | false =>
          have hred : allocTaskIDs R (n + 1) w =
              (Except.error WriterErr.leaseErr, { w with leaseResults := rest }) := by
            simp only [allocTaskIDs]
            rw [if_pos hex, allocTaskIDBlock_fail R w hend rest hlr]
          rw [hred]
          refine ⟨⟨hend, hlo, hhi, hrid⟩, le_refl _, rfl, ?_, ?_⟩
          · intro e he
            have he2 : (Except.error WriterErr.leaseErr : Except WriterErr (List Int)) = Except.error e := he
            cases he2
            rfl
          · intro ids hids
            have hids2 : (Except.error WriterErr.leaseErr : Except WriterErr (List Int)) = Except.ok ids := hids
            cases hids2
        | true =>
          have hred : allocTaskIDs R (n + 1) w =
              consStep ((w.rangeID + 1 - 1) * R + 1)
                (allocTaskIDs R n
                  { taskIDBlock := { start := (w.rangeID + 1 - 1) * R + 1 + 1
                                     end_ := (w.rangeID + 1) * R }
                    rangeID := w.rangeID + 1
                    leaseResults := rest
                    maxReadLevel := w.maxReadLevel }) := by
            simp only [allocTaskIDs]
            rw [if_pos hex, allocTaskIDBlock_ok R w hend rest hlr]
            rfl
          rw [hred]
          have hcancel : w.rangeID + 1 - 1 = w.rangeID := by ring
          have hmul : (w.rangeID + 1) * R = w.rangeID * R + R := by ring
          refine key _ _ ⟨rfl, ?_, ?_, ?_⟩ ?_ ?_ rfl
          · show (w.rangeID + 1 - 1) * R + 1 ≤ (w.rangeID + 1 - 1) * R + 1 + 1
            exact le_of_lt (lt_add_one _)
          · show (w.rangeID + 1 - 1) * R + 1 + 1 ≤ (w.rangeID + 1) * R + 1
            rw [hcancel, hmul]
            linarith
          · show (1 : Int) ≤ w.rangeID + 1
            linarith
          · show w.taskIDBlock.start ≤ (w.rangeID + 1 - 1) * R + 1
            rw [hcancel, hstart_eq, hend]
          · show (w.rangeID + 1 - 1) * R + 1 + 1 = (w.rangeID + 1 - 1) * R + 1 + 1
            rfl
    · have hle : w.taskIDBlock.start ≤ w.taskIDBlock.end_ := not_lt.mp hex
      have hred : allocTaskIDs R (n + 1) w =
          consStep w.taskIDBlock.start
            (allocTaskIDs R n
              { w with taskIDBlock := { w.taskIDBlock with start := w.taskIDBlock.start + 1 } }) := by
        simp only [allocTaskIDs]
        rw [if_neg hex]
      rw [hred]
      refine key _ _ ⟨hend, ?_, ?_, hrid⟩ (le_refl _) rfl rfl
      · show (w.rangeID - 1) * R + 1 ≤ w.taskIDBlock.start + 1
        linarith
      · show w.taskIDBlock.start + 1 ≤ w.taskIDBlock.end_ + 1
        linarith

/-- One writer-loop iteration preserves the loop invariant and never lowers
the watermark, whatever the batch size and the commit outcome. -/
theorem writerIteration_mono (R : Int) (hR : 1 ≤ R) (batchSize : Nat) (commitOK : Bool)
    (w : TaskWriterState) (hw : MInv R w) :
    MInv R (writerIteration R batchSize commitOK w).1 ∧
    w.maxReadLevel ≤ (writerIteration R batchSize commitOK w).1.maxReadLevel := by
  obtain ⟨hwi, hm⟩ := hw
  have H := allocTaskIDs_inv R hR batchSize w hwi
  rcases hq : allocTaskIDs R batchSize w with ⟨res, w2⟩
  rw [hq] at H
  have hwi2 : WInv R w2 := H.1
  have hst2 : w.taskIDBlock.start ≤ w2.taskIDBlock.start := H.2.1
  have hmrl2 : w2.maxReadLevel = w.maxReadLevel := H.2.2.1
  have hok2 := H.2.2.2.2
  cases res with
  | error e =>
    have hgoal : (writerIteration R batchSize commitOK w).1 = w2 := by
      simp [writerIteration, hq]
    rw [hgoal]
    refine ⟨⟨hwi2, ?_⟩, ?_⟩ <;> omega
  | ok ids =>
    by_cases hne : ids = []
    · subst hne
      have hgoal : (writerIteration R batchSize commitOK w).1 = w2 := by
        simp [writerIteration, hq]
      rw [hgoal]
      refine ⟨⟨hwi2, ?_⟩, ?_⟩ <;> omega
    · have hmem := foldl_pick_mem ids 0 hne
      have hb := (hok2 ids rfl).2.2 _ hmem
      by_cases hpos : ids.foldl (fun _ id => id) 0 > 0
      · have hgoal : (writerIteration R batchSize commitOK w).1 =
            { w2 with maxReadLevel := ids.foldl (fun _ id => id) 0 } := by
          simp [writerIteration, hq, hpos]
        rw [hgoal]
        refine ⟨⟨hwi2, ?_⟩, ?_⟩
        · show ids.foldl (fun _ id => id) 0 < w2.taskIDBlock.start
          exact hb.2
        · show w.maxReadLevel ≤ ids.foldl (fun _ id => id) 0
          omega
      · have hgoal : (writerIteration R batchSize commitOK w).1 = w2 := by
          simp [writerIteration, hq, hpos]
        rw [hgoal]
        refine ⟨⟨hwi2, ?_⟩, ?_⟩ <;> omega

/-- C6: over every schedule of writer-loop iterations started from a state
satisfying the loop invariant (as established by Start), the published
maxReadLevel is monotonically non-decreasing: the state reached by the
remaining iterations always carries a watermark at least as large, so each
store writes a value at least every previously stored one. -/
theorem maxReadLevel_monotone (R : Int) (hR : 1 ≤ R) (w : TaskWriterState) (hw : MInv R w)
    (iters : List (Nat × Bool)) :
    w.maxReadLevel ≤ (runLoop R iters w).maxReadLevel ∧ MInv R (runLoop R iters w) := by
  induction iters generalizing w with
  | nil => exact ⟨le_refl _, hw⟩
  | cons bc rest ih =>
    obtain ⟨b, c⟩ := bc
    simp only [runLoop]
    have hstep := writerIteration_mono R hR b c w hw
    have hrest := ih (writerIteration R b c w).1 hstep.1
    exact ⟨le_trans hstep.2 hrest.1, hrest.2⟩

/-- Witness for C6: start state with range size 2 and range id 1 (block
[1,2], watermark 0), then a successful batch of one and a failed batch of
two crossing a renewal; the watermark only moves up. -/
theorem maxReadLevel_monotone_witness :
    MInv 2 (startState 2 1 [true]) ∧
    (startState 2 1 [true]).maxReadLevel ≤
      (runLoop 2 [(1, true), (2, false)] (startState 2 1 [true])).maxReadLevel :=
  ⟨by decide,
   (maxReadLevel_monotone 2 (by norm_num) (startState 2 1 [true]) (by decide)
     [(1, true), (2, false)]).1⟩

/-- C5: alloc-task-ids either fails with the lease error or returns exactly
count strictly increasing ids (renewing the lease mid-call when the block
runs out, never returning fewer than count); the ids of a further
successful call from the reached state lie strictly above all ids of the
first call. -/
theorem allocTaskIDs_correct (R : Int) (hR : 1 ≤ R) (count : Nat) (w : TaskWriterState)
    (hw : WInv R w) :
    (∀ e, (allocTaskIDs R count w).1 = Except.error e → e = WriterErr.leaseErr) ∧
    (∀ ids, (allocTaskIDs R count w).1 = Except.ok ids →
      ids.length = count ∧ List.Chain' (· < ·) ids) ∧
    (∀ count2 ids ids2, (allocTaskIDs R count w).1 = Except.ok ids →
      (allocTaskIDs R count2 (allocTaskIDs R count w).2).1 = Except.ok ids2 →
      ∀ i ∈ ids, ∀ j ∈ ids2, i < j) := by
  have H := allocTaskIDs_inv R hR count w hw
  refine ⟨H.2.2.2.1, fun ids h => ⟨(H.2.2.2.2 ids h).1, (H.2.2.2.2 ids h).2.1⟩, ?_⟩
  intro count2 ids ids2 h1 h2 i hi j hj
  have H2 := allocTaskIDs_inv R hR count2 (allocTaskIDs R count w).2 H.1
  have hi2 := (H.2.2.2.2 ids h1).2.2 i hi
  have hj2 := (H2.2.2.2.2 ids2 h2).2.2 j hj
  exact lt_of_lt_of_le hi2.2 hj2.1

/-- Example writer state for the C5 witness: block [1,2] of range id 1 with
one successful renewal available, so a call for three ids crosses a
renewal. -/
def wEx : TaskWriterState :=
  { taskIDBlock := { start := 1, end_ := 2 }
    rangeID := 1
    leaseResults := [true]
    maxReadLevel := 0 }

/-- Witness for C5 at range size 2 and count 3: the call returns the three
strictly increasing ids 1, 2, 3, the third coming from the renewed block. -/
theorem allocTaskIDs_correct_witness :
    WInv 2 wEx ∧
    (allocTaskIDs 2 3 wEx).1 = Except.ok [1, 2, 3] ∧
    ([1, 2, 3] : List Int).length = 3 ∧ List.Chain' (· < ·) ([1, 2, 3] : List Int) := by
  refine ⟨by decide, by rfl, ?_⟩
  exact (allocTaskIDs_correct 2 (by norm_num) 3 wEx (by decide)).2.1 [1, 2, 3] (by rfl)

/-- The loop state exhibiting the unconditional watermark store: block
[1,10] of range id 1, watermark 0, no renewal needed. -/
def wC1 : TaskWriterState :=
  { taskIDBlock := { start := 1, end_ := 10 }
    rangeID := 1
    leaseResults := []
    maxReadLevel := 0 }

/-- C1 (code-bug evidence): an iteration over a batch of one request whose
CreateTasks call fails reports the persistence error to the batch and
nevertheless stores maxReadLevel = 1, the highest id of the failed batch;
the store at taskWriter.go line 243 is guarded only by maxReadLevel > 0 and
not by the commit having succeeded, while the claim (and sections 4.1 and 8
of the specification) require the watermark to be left unchanged when the
commit errors. -/
theorem maxReadLevel_stored_on_failed_commit :
    (writerIteration 10 1 false wC1).2 = some WriterErr.persistenceErr ∧
    wC1.maxReadLevel = 0 ∧
    (writerIteration 10 1 false wC1).1.maxReadLevel = 1 := by decide

/-- Length of the batch built by getWriteBatch: everything present up to
the iteration budget moves from the channel to the batch. -/
theorem getWriteBatch_length {α : Type} :
    ∀ (budget : Nat) (reqs appendCh : List α),
      (getWriteBatch budget reqs appendCh).1.length = reqs.length + min budget appendCh.length := by
  intro budget
  induction budget with
  | zero => intro reqs appendCh; simp [getWriteBatch]
  | succ n ih =>
    intro reqs appendCh
    cases appendCh with
    | nil => simp [getWriteBatch]
    | cons a t =>
      show (getWriteBatch n (reqs ++ [a]) t).1.length = reqs.length + min (n + 1) (t.length + 1)
      rw [ih]
      simp [List.length_append]
      omega

/-- C2 counterexample: with max-task-batch-size 1 and one request already
pending on the channel, the batch built for an incoming request holds 2
requests, exceeding max-task-batch-size. -/
theorem getWriteBatch_size_cex :
    ¬ (getWriteBatch 1 [(0 : Nat)] [1]).1.length ≤ 1 := by decide

/-- C2 amended: every batch holds at least 1 and at most
max-task-batch-size + 1 requests; after receiving one request the loop
greedily drains at most max-task-batch-size further requests without
blocking (the for loop runs MaxTaskBatchSize iterations on top of the
request that opened the batch). -/
theorem getWriteBatch_batch_size {α : Type} (maxTaskBatchSize : Nat) (request : α)
    (appendCh : List α) :
    1 ≤ (getWriteBatch maxTaskBatchSize [request] appendCh).1.length ∧
    (getWriteBatch maxTaskBatchSize [request] appendCh).1.length ≤ maxTaskBatchSize + 1 := by
  have h := getWriteBatch_length maxTaskBatchSize [request] appendCh
  rw [h]
  constructor
  · simp
  · have := Nat.min_le_left maxTaskBatchSize appendCh.length
    simp
    omega

/-- Witness for C2 amended: budget 2 with three pending requests yields a
batch of 3 = 2 + 1 requests. -/
theorem getWriteBatch_batch_size_witness :
    1 ≤ (getWriteBatch 2 [(0 : Nat)] [1, 2, 3]).1.length ∧
    (getWriteBatch 2 [(0 : Nat)] [1, 2, 3]).1.length ≤ 2 + 1 :=
  getWriteBatch_batch_size 2 0 [1, 2, 3]

/-- C9: after Stop, every appendTask admission refuses with the shutdown
error and leaves the state alone; while the admission queue is full (and
the writer not stopped) appendTask refuses immediately with the busy error
and leaves the state alone; Stop is idempotent, so a second Stop changes
nothing and in particular does not close the stop channel a second time. -/
theorem appendTask_stop_semantics (w : TaskWriterCtl) (req : Nat) :
    appendTask (Stop w) req = (AppendOutcome.shutdownErr, Stop w) ∧
    (w.stopped = false → ¬ w.appendCh.length < w.capacity →
      appendTask w req = (AppendOutcome.busyErr, w)) ∧
    Stop (Stop w) = Stop w := by
  refine ⟨?_, ?_, ?_⟩
  · have hs : (Stop w).stopped = true := by
      unfold Stop
      by_cases h : w.stopped = false
      · rw [if_pos h]
      · rw [if_neg h]
        exact eq_true_of_ne_false h
    unfold appendTask
    rw [hs]
    simp
  · intro hns hfull
    unfold appendTask
    rw [hns]
    simp only [Bool.false_eq_true, if_false]
    rw [if_neg hfull]
  · unfold Stop
    by_cases h : w.stopped = false
    · rw [if_pos h]
      simp
    · rw [if_neg h, if_neg h]

/-- Witness for C9 on a concrete full writer: capacity 1 with one queued
request refuses with busy, and after Stop refuses with shutdown. -/
theorem appendTask_stop_semantics_witness :
    appendTask { stopped := false, stopChCloseCount := 0, appendCh := [5], capacity := 1 } 7 =
      (AppendOutcome.busyErr,
       { stopped := false, stopChCloseCount := 0, appendCh := [5], capacity := 1 }) ∧
    appendTask (Stop { stopped := false, stopChCloseCount := 0, appendCh := [5], capacity := 1 }) 7 =
      (AppendOutcome.shutdownErr,
       Stop { stopped := false, stopChCloseCount := 0, appendCh := [5], capacity := 1 }) :=
  ⟨(appendTask_stop_semantics
      { stopped := false, stopChCloseCount := 0, appendCh := [5], capacity := 1 } 7).2.1
      rfl (by decide),
   (appendTask_stop_semantics
      { stopped := false, stopChCloseCount := 0, appendCh := [5], capacity := 1 } 7).1⟩

/-! ### Claims on the partitioner and the zone-state resolver -/

/-- C7: the zone-state Get follows the layered order.  With the gate off it
answers healthy unconditionally; with the gate on, a per-domain entry is
returned only when it marks the zone drained; otherwise the global drain
table's entry is returned when present (so a healthy per-domain entry does
not override a global drain); otherwise the zone is healthy.  In particular
a zone marked drained at any consulted layer is reported drained. -/
theorem zoneGet_layered (z : DefaultZoneStateHandler) (domain : String) (zone : ZoneName) :
    (z.zonalPartitioningEnabled domain = false →
      z.Get domain zone = Except.ok { Name := zone, Status := ZoneStatus.healthy }) ∧
    (∀ d cfg, z.zonalPartitioningEnabled domain = true →
      z.domainCache domain = Except.ok d →
      d.ZoneConfig.lookup zone = some cfg →
      cfg.Status = ZoneStatus.drained →
      z.Get domain zone = Except.ok cfg) ∧
    (∀ d drains g, z.zonalPartitioningEnabled domain = true →
      z.domainCache domain = Except.ok d →
      (d.ZoneConfig.lookup zone = none ∨
        (∀ cfg, d.ZoneConfig.lookup zone = some cfg → cfg.Status ≠ ZoneStatus.drained)) →
      z.globalZoneDrains = Except.ok drains →
      drains.lookup zone = some g →
      z.Get domain zone = Except.ok g) ∧
    (∀ d drains, z.zonalPartitioningEnabled domain = true →
      z.domainCache domain = Except.ok d →
      (d.ZoneConfig.lookup zone = none ∨
        (∀ cfg, d.ZoneConfig.lookup zone = some cfg → cfg.Status ≠ ZoneStatus.drained)) →
      z.globalZoneDrains = Except.ok drains →
      drains.lookup zone = none →
      z.Get domain zone = Except.ok { Name := zone, Status := ZoneStatus.healthy }) := by
  refine ⟨?_, ?_, ?_, ?_⟩
  · intro hgate
    simp [DefaultZoneStateHandler.Get, hgate]
  · intro d cfg hgate hdc hlook hdr
    simp [DefaultZoneStateHandler.Get, hgate, hdc, hlook, hdr]
  · intro d drains g hgate hdc hdom hgl hlook
    rcases hdom with h | h
    · simp [DefaultZoneStateHandler.Get, DefaultZoneStateHandler.getGlobal,
        hgate, hdc, h, hgl, hlook]
    · rcases hcase : d.ZoneConfig.lookup zone with _ | cfg
      · simp [DefaultZoneStateHandler.Get, DefaultZoneStateHandler.getGlobal,
          hgate, hdc, hcase, hgl, hlook]
      · have hnd := h cfg hcase
        simp [DefaultZoneStateHandler.Get, DefaultZoneStateHandler.getGlobal,
          hgate, hdc, hcase, hnd, hgl, hlook]
  · intro d drains hgate hdc hdom hgl hlook
    rcases hdom with h | h
    · simp [DefaultZoneStateHandler.Get, DefaultZoneStateHandler.getGlobal,
        hgate, hdc, h, hgl, hlook]
    · rcases hcase : d.ZoneConfig.lookup zone with _ | cfg
      · simp [DefaultZoneStateHandler.Get, DefaultZoneStateHandler.getGlobal,
          hgate, hdc, hcase, hgl, hlook]
      · have hnd := h cfg hcase
        simp [DefaultZoneStateHandler.Get, DefaultZoneStateHandler.getGlobal,
          hgate, hdc, hcase, hnd, hgl, hlook]

/-- The resolver of the C7 witness: gate enabled, the domain override
draining zone z1, an empty global table. -/
def zC7 : DefaultZoneStateHandler :=
  { zonalPartitioningEnabled := fun _ => true
    domainCache := fun _ =>
      Except.ok { ZoneConfig := [("z1", { Name := "z1", Status := ZoneStatus.drained })] }
    globalZoneDrains := Except.ok []
    allZonesList := ["z1"] }

/-- Witness for C7: the per-domain drained override on z1 is returned, and
for z2 the global and default layers answer healthy. -/
theorem zoneGet_layered_witness :
    zC7.Get "d" "z1" = Except.ok { Name := "z1", Status := ZoneStatus.drained } ∧
    zC7.Get "d" "z2" = Except.ok { Name := "z2", Status := ZoneStatus.healthy } := by
  refine ⟨?_, ?_⟩
  · exact (zoneGet_layered zC7 "d" "z1").2.1 _ _ rfl rfl (by rfl) rfl
  · exact (zoneGet_layered zC7 "d" "z2").2.2.2 _ _ rfl rfl (Or.inl (by rfl)) rfl (by rfl)

/-- C8: with a non-empty list of zones all healthy, pickZoneAfterDrain
deterministically selects the zone name at index hash(run-id) mod length
(the hash parameter standing for the 32-bit farm hash of the external
go-farm library); it does select a zone, and a second hint with the same
run id picks the same zone. -/
theorem pickZoneAfterDrain_det (hash : String → Nat) (Z : List ZonePartition)
    (cfg cfg2 : DefaultPartitionConfig) (hne : Z ≠ [])
    (hh : ∀ z ∈ Z, z.Status = ZoneStatus.healthy) (hr : cfg.RunID = cfg2.RunID) :
    pickZoneAfterDrain hash Z cfg = (Z.map ZonePartition.Name).get? (hash cfg.RunID % Z.length) ∧
    (∃ zone, pickZoneAfterDrain hash Z cfg = some zone) ∧
    pickZoneAfterDrain hash Z cfg = pickZoneAfterDrain hash Z cfg2 := by
  have hfilter : Z.filter (fun zone => zone.Status == ZoneStatus.healthy) = Z := by
    apply List.filter_eq_self.mpr
    intro a ha
    simp [hh a ha]
  have hlen : (Z.map ZonePartition.Name).length = Z.length := by simp
  have hpos : 0 < Z.length := List.length_pos.mpr hne
  refine ⟨?_, ?_, ?_⟩
  · simp only [pickZoneAfterDrain, hfilter, hlen]
  · simp only [pickZoneAfterDrain, hfilter, hlen]
    have hidx : hash cfg.RunID % Z.length < (Z.map ZonePartition.Name).length := by
      rw [hlen]
      exact Nat.mod_lt _ hpos
    exact ⟨_, List.get?_eq_get hidx⟩
  · simp only [pickZoneAfterDrain, hfilter, hr]

/-- Farm-hash stand-in for the C8 witness. -/
def hashLen (s : String) : Nat := s.length

/-- Healthy zone list of the C8 witness. -/
def ZEx : List ZonePartition :=
  [{ Name := "a", Status := ZoneStatus.healthy }, { Name := "c", Status := ZoneStatus.healthy }]

/-- Decoded hint of the C8 witness. -/
def cfgEx : DefaultPartitionConfig := { WorkflowStartZone := "b", RunID := "r1" }

/-- Witness for C8: over the healthy zones a and c with run id r1 (hash
stand-in: string length, so index 2 mod 2 = 0), the pick is zone a. -/
theorem pickZoneAfterDrain_det_witness :
    pickZoneAfterDrain hashLen ZEx cfgEx =
      (ZEx.map ZonePartition.Name).get? (hashLen cfgEx.RunID % ZEx.length) ∧
    pickZoneAfterDrain hashLen ZEx cfgEx = some "a" :=
  ⟨(pickZoneAfterDrain_det hashLen ZEx cfgEx cfgEx (by decide) (by decide) rfl).1, by rfl⟩

/-- The zone-state answers of the C3 scenario: every zone reports drained
and the zone listing holds the single drained zone b. -/
def zsAllDrained : ZoneStateI :=
  { get := fun _ zone => Except.ok { Name := zone, Status := ZoneStatus.drained }
    listAll := fun _ => Except.ok [{ Name := "b", Status := ZoneStatus.drained }] }

/-- C3 (code-bug evidence): with the hinted start zone drained and no
healthy zone in the listing, GetTaskZone ends in a runtime panic
(pickZoneAfterDrain computes hash mod 0 and indexes an empty slice,
default-partitioner.go line 160) instead of returning a no-capacity error;
no such error value exists anywhere in the code. -/
theorem getTaskZone_no_healthy_panics :
    GetTaskZone (fun _ => 0) zsAllDrained "domain1"
      (some [("wf-start-zone", "b"), ("run-id", "r1")]) = GoResult.panicked := by rfl

/-- The zone-state answers of the C4 counterexample: every zone healthy. -/
def zsAllHealthy : ZoneStateI :=
  { get := fun _ zone => Except.ok { Name := zone, Status := ZoneStatus.healthy }
    listAll := fun _ => Except.ok [] }

/-- C4 counterexample: a hint that decodes but lacks the wf-start-zone key
is not refused; GetTaskZone returns the zone with the empty name (the
field's zero value) instead of an error. -/
theorem getTaskZone_missing_key_cex :
    GetTaskZone (fun _ => 0) zsAllHealthy "domain1" (some [("run-id", "r1")]) =
      GoResult.ok "" := by rfl

/-- C4 amended: unknown keys are ignored by the decode and a hint that does
not decode yields the invalid-hint error, but a hint that decodes without
the wf-start-zone key is not an error: json.Unmarshal leaves the missing
field at its zero value, so the decoded start zone is the empty string. -/
theorem decodeHint_amended (k v : String) (kvs : List (String × String))
    (hk1 : k ≠ "wf-start-zone") (hk2 : k ≠ "run-id")
    (hmiss : kvs.lookup "wf-start-zone" = none) :
    decodeHint none = Except.error PartErr.decodeErr ∧
    decodeHint (some ((k, v) :: kvs)) = decodeHint (some kvs) ∧
    decodeHint (some kvs) =
      Except.ok { WorkflowStartZone := "", RunID := (kvs.lookup "run-id").getD "" } := by
  refine ⟨rfl, ?_, ?_⟩
  · have e1 : ("wf-start-zone" == k) = false := beq_eq_false_iff_ne.mpr (Ne.symm hk1)
    have e2 : ("run-id" == k) = false := beq_eq_false_iff_ne.mpr (Ne.symm hk2)
    simp [decodeHint, List.lookup, e1, e2]
  · simp [decodeHint, hmiss]

/-- Witness for C4 amended: the unknown key userid is ignored and the hint
carrying only run-id decodes to the empty start zone. -/
theorem decodeHint_amended_witness :
    decodeHint (some [("userid", "1234"), ("run-id", "r1")]) =
      decodeHint (some [("run-id", "r1")]) ∧
    decodeHint (some [("run-id", "r1")]) =
      Except.ok { WorkflowStartZone := "", RunID := "r1" } := by
  have h := decodeHint_amended "userid" "1234" [("run-id", "r1")] (by decide) (by decide) (by rfl)
  refine ⟨h.2.1, ?_⟩
  rw [h.2.2]
  rfl

/-- listAllFrom yields one resolved partition per listed zone, in listed
order, or the first Get error with no partial output. -/
theorem listAllFrom_spec (z : DefaultZoneStateHandler) (domainID : String) :
    ∀ (zs : List ZoneName),
      (∀ out, z.listAllFrom domainID zs = Except.ok out →
        out.length = zs.length ∧
        ∀ (i : Nat) (h1 : i < out.length) (h2 : i < zs.length),
          z.Get domainID (zs.get ⟨i, h2⟩) = Except.ok (out.get ⟨i, h1⟩)) ∧
      ((∃ zone ∈ zs, ∃ e, z.Get domainID zone = Except.error e) →
        ∃ e, z.listAllFrom domainID zs = Except.error e) := by
  intro zs
  induction zs with
  | nil =>
    refine ⟨?_, ?_⟩
    · intro out hout
      have hout2 : (Except.ok ([] : List ZonePartition) :
          Except PartErr (List ZonePartition)) = Except.ok out := hout
      cases hout2
      exact ⟨rfl, fun i h1 h2 => absurd h2 (by simp)⟩
    · rintro ⟨zone, hz, he⟩
      simp at hz
  | cons zone rest ih =>
    rcases hg : z.Get domainID zone with e | zp
    · refine ⟨?_, ?_⟩
      · intro out hout
        simp only [DefaultZoneStateHandler.listAllFrom, hg] at hout
        cases hout
      · intro _
        exact ⟨e, by simp only [DefaultZoneStateHandler.listAllFrom, hg]⟩
    · rcases hrest : z.listAllFrom domainID rest with e2 | out2
      · refine ⟨?_, ?_⟩
        · intro out hout
          simp only [DefaultZoneStateHandler.listAllFrom, hg, hrest] at hout
          cases hout
        · intro _
          exact ⟨e2, by simp only [DefaultZoneStateHandler.listAllFrom, hg, hrest]⟩
      · refine ⟨?_, ?_⟩
        · intro out hout
          simp only [DefaultZoneStateHandler.listAllFrom, hg, hrest] at hout
          have hout3 : zp :: out2 = out := by
            injection hout
          subst hout3
          have hih := ih.1 out2 hrest
          refine ⟨by simp [hih.1], ?_⟩
          intro i h1 h2
          cases i with
          | zero => exact hg
          | succ m =>
            exact hih.2 m (Nat.lt_of_succ_lt_succ h1) (Nat.lt_of_succ_lt_succ h2)
        · rintro ⟨zone2, hz2, e3, he3⟩
          rcases List.mem_cons.mp hz2 with h | h
          · subst h
            rw [hg] at he3
            cases he3
          · obtain ⟨e4, he4⟩ := ih.2 ⟨zone2, h, e3, he3⟩
            rw [hrest] at he4
            cases he4

/-- C10: ListAll either returns exactly one zone partition per configured
zone, in the order of the configured all-zones list (the i-th output is
the resolution of the i-th zone), or, when resolving any single zone
fails, returns an error and no partial list. -/
theorem ListAll_spec (z : DefaultZoneStateHandler) (domainID : String) :
    (∀ out, z.ListAll domainID = Except.ok out →
      out.length = z.allZonesList.length ∧
      ∀ (i : Nat) (h1 : i < out.length) (h2 : i < z.allZonesList.length),
        z.Get domainID (z.allZonesList.get ⟨i, h2⟩) = Except.ok (out.get ⟨i, h1⟩)) ∧
    ((∃ zone ∈ z.allZonesList, ∃ e, z.Get domainID zone = Except.error e) →
      ∃ e, z.ListAll domainID = Except.error e) :=
  listAllFrom_spec z domainID z.allZonesList

/-- The resolver of the C10 witness: zonal partitioning disabled, so every
zone resolves healthy through the gate. -/
def zEx : DefaultZoneStateHandler :=
  { zonalPartitioningEnabled := fun _ => false
    domainCache := fun _ => Except.error PartErr.domainErr
    globalZoneDrains := Except.error PartErr.drainsErr
    allZonesList := ["z1", "z2"] }

/-- Witness for C10: both configured zones are resolved, in order. -/
theorem ListAll_spec_witness :
    zEx.ListAll "d" =
      Except.ok [{ Name := "z1", Status := ZoneStatus.healthy },
                 { Name := "z2", Status := ZoneStatus.healthy }] ∧
    ([{ Name := "z1", Status := ZoneStatus.healthy },
      { Name := "z2", Status := ZoneStatus.healthy }] : List ZonePartition).length =
      zEx.allZonesList.length := by
  refine ⟨by rfl, ?_⟩
  exact ((ListAll_spec zEx "d").1 _ (by rfl)).1

end Cadence
